import Mathlib

/-!
Shallow embedding of the backuply repository's core logic
(`src/backuply/jobs.py` and `src/backuply/plugins/gdrive.py`).

Python strings are modelled as lists of characters (`PyStr`), the
filesystem as boolean predicates over paths, and the mount table as a
list of raw lines.  Fallible Python code is modelled with `Except`.
-/

namespace Backuply

/-- Python strings (sequences of code points). -/
abbrev PyStr := List Char

/-! ## Python string / posixpath primitives -/

/-- Python `s.rstrip('/')`: remove every trailing slash character. -/
def rstripSlash (s : PyStr) : PyStr :=
  (s.reverse.dropWhile (fun c => c == '/')).reverse

/-- `leadsWith pat s` is true when `pat` is an initial segment of `s`
(the check Python performs when scanning for a pattern occurrence). -/
def leadsWith : PyStr → PyStr → Bool
  | [], _ => true
  | _ :: _, [] => false
  | p :: ps, c :: cs => p == c && leadsWith ps cs

/-- One-position regex match for the fragment of Python `re` that the
repository's candidate paths exercise: every pattern character matches
itself literally except `'.'`, which matches any character other than a
newline.  (The paths fed to `re.search` in `jobs.py` contain no other
regex metacharacters, so this fragment is faithful where it is used.) -/
def reMatchHere : PyStr → PyStr → Bool
  | [], _ => true
  | _ :: _, [] => false
  | p :: ps, c :: cs => (p == '.' && c != '\n' || p == c) && reMatchHere ps cs

/-- Python `re.search(pat, line)` (truthiness of the match object) for
the metacharacter-free-except-dot fragment: the pattern matches at some
position of the line. -/
def reSearch (pat : PyStr) : PyStr → Bool
  | [] => reMatchHere pat []
  | s@(_ :: rest) => reMatchHere pat s || reSearch pat rest

/-- The index `p.rfind('/') + 1` used by `posixpath.split`: the position
just after the last slash, `0` when there is no slash. -/
def splitIdx (s : PyStr) : Nat :=
  s.length - (s.reverse.takeWhile (fun c => c != '/')).length

/-- `posixpath.split(p)`: split into `(head, tail)` at the last slash;
the head keeps no trailing slash unless it consists only of slashes. -/
def pathSplit (s : PyStr) : PyStr × PyStr :=
  let i := splitIdx s
  let head := s.take i
  let tail := s.drop i
  let head := if !head.isEmpty && !(head.all (fun c => c == '/')) then
      rstripSlash head
    else head
  (head, tail)

/-- `posixpath.join(a, b)` for two components. -/
def pathJoin (a b : PyStr) : PyStr :=
  if b.head? == some '/' then b
  else if a.isEmpty || a.getLast? == some '/' then a ++ b
  else a ++ '/' :: b

/-- Python `s.replace(pat, rep)` for a nonempty pattern: replace every
non-overlapping occurrence, scanning left to right.  (The repository
only calls `replace` with the nonempty pattern `".tar.gz"`.) -/
def listReplace (s pat rep : PyStr) : PyStr :=
  match s with
  | [] => []
  | c :: rest =>
    if !pat.isEmpty && leadsWith pat (c :: rest) then
      rep ++ listReplace ((c :: rest).drop pat.length) pat rep
    else
      c :: listReplace rest pat rep
termination_by s.length
decreasing_by
  · simp only [List.length_drop, List.length_cons]
    have hp : 1 ≤ pat.length := by
      cases pat with
      | nil => simp at *
      | cons a as => simp
    omega
  · simp

/-! ## Basic lemmas about the path primitives -/

theorem dropWhile_length_le (p : Char → Bool) (l : PyStr) :
    (l.dropWhile p).length ≤ l.length := by
  induction l with
  | nil => simp
  | cons c cs ih =>
    simp only [List.dropWhile]
    split
    · exact Nat.le_succ_of_le ih
    · simp

theorem rstripSlash_length_le (s : PyStr) : (rstripSlash s).length ≤ s.length := by
  unfold rstripSlash
  simpa using dropWhile_length_le (fun c => c == '/') s.reverse

theorem splitIdx_le (s : PyStr) : splitIdx s ≤ s.length := by
  unfold splitIdx
  omega

theorem pathSplit_head_length_le (s : PyStr) :
    (pathSplit s).1.length ≤ splitIdx s := by
  unfold pathSplit
  simp only
  split
  · calc (rstripSlash (s.take (splitIdx s))).length
        ≤ (s.take (splitIdx s)).length := rstripSlash_length_le _
      _ ≤ splitIdx s := by simp
  · simp

theorem pathSplit_tail_ne_nil_iff (s : PyStr) :
    (pathSplit s).2 ≠ [] ↔ splitIdx s < s.length := by
  unfold pathSplit
  simp only
  constructor
  · intro h
    by_contra hlt
    push_neg at hlt
    exact h (by simpa using List.drop_eq_nil_of_le hlt)
  · intro h hnil
    have := List.length_drop (splitIdx s) s ▸ congrArg List.length hnil
    simp at this
    omega

theorem pathSplit_head_lt_of_tail_ne_nil (s : PyStr) (h : (pathSplit s).2 ≠ []) :
    (pathSplit s).1.length < s.length := by
  have h1 := pathSplit_head_length_le s
  have h2 := (pathSplit_tail_ne_nil_iff s).mp h
  omega

/-! ## Errno constants (Linux values, as used by the `errno` module) -/

def ENOENT : Nat := 2
def ENXIOVal : Nat := 6
def EEXIST : Nat := 17
def ENOTDIR : Nat := 20
def EISDIR : Nat := 21

/-! ## The filesystem state seen by `ShellBackupJob.validate_backup_target` -/

/-- The environment of one `validate_backup_target` run: the results of
`os.path.isfile` / `os.path.isdir` / `os.path.ismount` per path, and the
raw lines yielded by iterating over the open `/etc/fstab` file. -/
structure FstabFS where
  isfile : PyStr → Bool
  isdir : PyStr → Bool
  ismount : PyStr → Bool
  fstab : List PyStr

/-- The `InvalidBackupTarget` exception as raised inside
`validate_backup_target`, reduced to the data the claims inspect.  At
runtime the name resolves to the module-level class at line 380 of
`jobs.py` (which shadows the `errors.py` import of line 10); the
three-positional-argument raise sites of `validate_backup_target`
construct it successfully with the errno value as `args[0]`.  `errnum`
models that errno value and `backup_target` the path passed at the
raise site (the human-readable message is dropped). -/
structure InvalidBackupTarget where
  errnum : Nat
  backup_target : PyStr
deriving DecidableEq, Repr

/-- Lines 143–153 of `jobs.py`: the type checks run at the top of every
`validate_backup_target` invocation.  Returns the `backup_dir`
(containing directory recorded when a required file target exists). -/
def entryCheck (fs : FstabFS) (backup_target : PyStr) (file_required : Bool) :
    Except InvalidBackupTarget (Option PyStr) :=
  if file_required then
    if fs.isdir backup_target then
      .error ⟨EISDIR, backup_target⟩
    else if fs.isfile backup_target then
      .ok (some (pathSplit backup_target).1)
    else .ok none
  else
    if fs.isfile backup_target then
      .error ⟨ENOTDIR, backup_target⟩
    else .ok none

/-- Lines 203–207 of `jobs.py`: a directory target is returned with
exactly one trailing slash. -/
def addTrailingSlash (fs : FstabFS) (backup_target : PyStr) : PyStr :=
  if fs.isdir backup_target && !(backup_target.getLast? == some '/') then
    backup_target ++ ['/']
  else backup_target

/-- Lines 192–207 of `jobs.py`: the existence checks performed after the
mount-table walk, followed by the trailing-slash normalization. -/
def finalChecks (fs : FstabFS) (backup_target : PyStr) (file_required : Bool)
    (backup_dir : Option PyStr) : Except InvalidBackupTarget PyStr :=
  if !fs.isdir backup_target && !file_required then
    .error ⟨ENOTDIR, backup_target⟩
  else
    match backup_dir with
    | some d =>
      if !fs.isdir d then .error ⟨ENOTDIR, backup_target⟩
      else .ok (addTrailingSlash fs backup_target)
    | none => .ok (addTrailingSlash fs backup_target)

/-- `ShellBackupJob.validate_backup_target` with an explicit `cur_dir`,
exactly as each recursive call executes it (lines 143–207 of `jobs.py`):
rerun the entry type checks, strip trailing slashes from `cur_dir`,
scan every `/etc/fstab` line with `re.search(cur_dir, line)`; on a match
require `os.path.ismount`; otherwise chop the last path component and
recurse, falling back to the final checks when the component is empty.
The `except (IndexError, InvalidBackupTarget): pass` around the
recursive call turns any error from deeper levels into a fall-through
to the current level's final checks. -/
def vbtWalk (fs : FstabFS) (backup_target : PyStr) (file_required : Bool)
    (cur_dir : PyStr) : Except InvalidBackupTarget PyStr :=
  match entryCheck fs backup_target file_required with
  | .error e => .error e
  | .ok backup_dir =>
    let c := rstripSlash cur_dir
    if fs.fstab.any (fun line => reSearch c line) then
      if fs.ismount c = false then
        .error ⟨ENXIOVal, backup_target⟩
      else finalChecks fs backup_target file_required backup_dir
    else
      let pr := pathSplit c
      if pr.2 ≠ [] then
        match vbtWalk fs backup_target file_required pr.1 with
        | .ok s => .ok s
        | .error _ => finalChecks fs backup_target file_required backup_dir
      else finalChecks fs backup_target file_required backup_dir
termination_by cur_dir.length
decreasing_by
  calc (pathSplit (rstripSlash cur_dir)).1.length
      < (rstripSlash cur_dir).length := by
        apply pathSplit_head_lt_of_tail_ne_nil
        assumption
    _ ≤ cur_dir.length := rstripSlash_length_le cur_dir

/-- `ShellBackupJob.validate_backup_target(backup_target, file_required,
cur_dir)` of `jobs.py`.  With `cur_dir = None` the walk starts from the
backup target (or from its containing directory when the target is an
existing required file); recursive calls pass `cur_dir` explicitly. -/
def validate_backup_target (fs : FstabFS) (backup_target : PyStr)
    (file_required : Bool) (cur_dir : Option PyStr) :
    Except InvalidBackupTarget PyStr :=
  match cur_dir with
  | some c => vbtWalk fs backup_target file_required c
  | none =>
    match entryCheck fs backup_target file_required with
    | .error e => .error e
    | .ok backup_dir =>
      vbtWalk fs backup_target file_required (backup_dir.getD backup_target)

/-- The sequence of (slash-stripped) candidate paths that the walk
searches the mount table for, starting from a given `cur_dir`. -/
def fstabCandidates (cur_dir : PyStr) : List PyStr :=
  let c := rstripSlash cur_dir
  let pr := pathSplit c
  if pr.2 ≠ [] then c :: fstabCandidates pr.1 else [c]
termination_by cur_dir.length
decreasing_by
  calc (pathSplit (rstripSlash cur_dir)).1.length
      < (rstripSlash cur_dir).length := by
        apply pathSplit_head_lt_of_tail_ne_nil
        assumption
    _ ≤ cur_dir.length := rstripSlash_length_le cur_dir

/-- The mutable filesystem state that `backup` reads and writes:
which paths currently hold a regular file. -/
structure FileSys where
  isfile : PyStr → Bool

/-- `os.rename(src, dst)`: afterwards `dst` holds what `src` held and
`src` is gone. -/
def fsRename (fsys : FileSys) (src dst : PyStr) : FileSys :=
  ⟨fun p => if p == dst then fsys.isfile src
            else if p == src then false
            else fsys.isfile p⟩

/-- `os.remove(p)` combined with `backup`'s cleanup handler: a missing
file raises `ENOENT`, which the surrounding `except IOError` swallows,
so the net effect is that `p` no longer holds a file. -/
def fsRemove (fsys : FileSys) (p : PyStr) : FileSys :=
  ⟨fun q => if q == p then false else fsys.isfile q⟩

/-- The exceptions `backup` can surface. -/
inductive BackupError where
  /-- The `TypeError` produced by the `raise InvalidBackupTarget(...)`
  at lines 69–73 of `jobs.py`: that call passes four positional
  arguments, but the module-level `InvalidBackupTarget` class defined
  at line 380 of `jobs.py` — which shadows the class imported from
  `errors.py` at line 10 — accepts only
  `(message, backup_target=None, backup_type=None)`, so constructing
  the exception itself raises `TypeError` before anything is raised
  with an errno. -/
  | typeError
  /-- `subprocess.CalledProcessError` raised by `subprocess.check_call`
  when the external command exits with a non-zero code. -/
  | calledProcessError (returncode : Nat)
deriving DecidableEq, Repr

/-- The `".tar.gz"` literal of `jobs.py`. -/
def tarGzSuffix : PyStr := ".tar.gz".toList

/-- Lines 77–81 of `jobs.py`: the rotated sibling name for an existing
backup — the filename with every `".tar.gz"` occurrence replaced by
`".<timestamp>.tar.gz"`, rejoined to the directory.  `ts` is the
formatted timestamp string produced by the source's
Y.m.d.H.M.S format expression. -/
def rotatedName (backup_target ts : PyStr) : PyStr :=
  let sp := pathSplit backup_target
  pathJoin sp.1 (listReplace sp.2 tarGzSuffix ('.' :: ts ++ tarGzSuffix))

/-- `subprocess.check_call(cmd)`: returns `0` when the external command
exits with code `0` and raises `CalledProcessError` for every non-zero
exit code.  `retcode` is the exit code of the external command. -/
def check_call (retcode : Nat) : Except BackupError Nat :=
  if retcode != 0 then .error (.calledProcessError retcode)
  else .ok retcode

/-- `ShellBackupJob.backup` (lines 56–95 of `jobs.py`): if the target is
an existing file and overwrite is disabled, the attempted
`raise InvalidBackupTarget(errno.EEXIST, ...)` itself blows up with
`TypeError` — the four-positional-argument call targets the
three-parameter `InvalidBackupTarget` class at line 380 of `jobs.py`,
which shadows the `errors.py` import (see `BackupError.typeError`);
with overwrite enabled, rename the target to the rotated name, run the
external command through `subprocess.check_call`, and when the
returned code is in `(0, 2)` and an old backup was rotated out, delete
it (swallowing a missing-file error).  Returns the result paired with
the final filesystem state — an exception propagates but the renames
performed before it persist. -/
def backup (fsys : FileSys) (backup_target : PyStr) (overwrite : Bool)
    (ts : PyStr) (retcode : Nat) : Except BackupError Nat × FileSys :=
  match (if fsys.isfile backup_target then
           if !overwrite then
             Except.error BackupError.typeError
           else
             Except.ok (some (rotatedName backup_target ts),
                        fsRename fsys backup_target (rotatedName backup_target ts))
         else Except.ok ((none : Option PyStr), fsys)) with
  | .error e => (.error e, fsys)
  | .ok (old_backup, fsys1) =>
    match check_call retcode with
    | .error e => (.error e, fsys1)
    | .ok job_retval =>
      if (job_retval == 0 || job_retval == 2) && old_backup.isSome then
        match old_backup with
        | some ob => (.ok job_retval, fsRemove fsys1 ob)
        | none => (.ok job_retval, fsys1)
      else (.ok job_retval, fsys1)

/-! ## `GoogleDrivePlugin.should_update_file` / `upload_file`
(gdrive.py lines 253–302 and 407–464) -/

/-- One entry of a Google Drive `files().list` response, reduced to the
fields `should_update_file` reads.  `modifiedTime` is the parsed
timestamp (timestamps are totally ordered). -/
structure DriveFile where
  name : PyStr
  modifiedTime : Int
  trashed : Bool
deriving DecidableEq, Repr

/-- The per-page loop body of `should_update_file` (lines 275–284 and
291–298 of gdrive.py): skip trashed entries; on the first name match
return `mtime > drive_mtime`; `none` when the page has no match. -/
def findVerdict (srcName : PyStr) (mtime : Int) :
    List DriveFile → Option Bool
  | [] => none
  | f :: fs =>
    if f.trashed then findVerdict srcName mtime fs
    else if f.name == srcName then some (decide (f.modifiedTime < mtime))
    else findVerdict srcName mtime fs

/-- The multi-page `while matched_files.get('nextPageToken')` loop of
`should_update_file`: each iteration fetches the next page and scans
it; `true` when the pages are exhausted without a verdict. -/
def scanPages (srcName : PyStr) (mtime : Int) :
    List (List DriveFile) → Bool
  | [] => true
  | page :: rest =>
    match findVerdict srcName mtime page with
    | some b => b
    | none => scanPages srcName mtime rest

/-- `GoogleDrivePlugin.should_update_file` (lines 253–302 of gdrive.py)
over the pages returned by the Drive `files().list` pagination.  `mtime`
is the local file's modification time already converted to UTC (lines
262–263).  A single-page response (no `nextPageToken`) is scanned
directly; a multi-page response enters the `while` loop, which fetches
the next page before scanning, so the first page is never examined.
Responses that raise `AttributeError`/`TypeError`/`KeyError` (and the
fall-through) yield `True`; well-formed responses are assumed. -/
def should_update_file (srcName : PyStr) (mtime : Int)
    (pages : List (List DriveFile)) : Bool :=
  match pages with
  | [] => true
  | [page] => (findVerdict srcName mtime page).getD true
  | _ :: rest => scanPages srcName mtime rest

/-- The pages whose entries `should_update_file` actually scans: the
sole page of a single-page response, every page but the first of a
multi-page response. -/
def scannedPages : List (List DriveFile) → List (List DriveFile)
  | [] => []
  | [page] => [page]
  | _ :: rest => rest

/-- First non-trashed entry of a page whose name equals the source
file's name. -/
def firstMatchPage (srcName : PyStr) : List DriveFile → Option DriveFile
  | [] => none
  | f :: fs =>
    if !f.trashed && f.name == srcName then some f
    else firstMatchPage srcName fs

/-- First non-trashed name match across a list of pages. -/
def firstMatch (srcName : PyStr) : List (List DriveFile) → Option DriveFile
  | [] => none
  | page :: rest =>
    match firstMatchPage srcName page with
    | some f => some f
    | none => firstMatch srcName rest

/-- Outcome of one actual upload attempt (the `files().create` request
driven by `_resumable_upload` or `execute`), as seen through the
`except errors.HttpError` handler of `upload_file`. -/
inductive AttemptResult where
  | success
  | http404
  | httpOther
deriving DecidableEq, Repr

/-- Result of `GoogleDrivePlugin.upload_file` as the claims observe it. -/
inductive UploadResult where
  /-- Returned `None` after the "already up to date" skip. -/
  | skipped
  /-- Returned the parents/response pair. -/
  | uploaded
  /-- The 404 `HttpError` re-raised once `tries` reached the cap. -/
  | failedNotFound
  /-- A non-404 `HttpError` raised immediately. -/
  | failedOther
deriving DecidableEq, Repr

/-- `GoogleDrivePlugin.upload_file` (lines 407–464 of gdrive.py),
abstracted over the pipeline's update flag, the (deterministic) result
of `should_update_file`, and the outcome `att k` of the `k`-th upload
attempt.  Lines 435–443: upload unless update mode is on and
`should_update_file` is false.  Lines 452–464: a 404 `HttpError`
increments `tries` and recurses while `tries < 5`, then re-raises; any
other `HttpError` is re-raised at once. -/
def upload_file (update : Bool) (needsUpdate : Bool)
    (att : Nat → AttemptResult) (tries : Nat) : UploadResult :=
  let upload := if !update then true
                else if update && needsUpdate then true
                else false
  if !upload then .skipped
  else
    match att tries with
    | .success => .uploaded
    | .httpOther => .failedOther
    | .http404 =>
      if tries + 1 ≥ 5 then .failedNotFound
      else upload_file update needsUpdate att (tries + 1)
termination_by 5 - tries

/-! ## `GoogleDriveBackupJob.backup` tree walk (gdrive.py lines 84–99) -/

/-- A filesystem entry as `pathlib` classifies it.  A symlink records
whether its resolved target is a regular file (what `Path.is_file`
reports, since it follows links) and the target's size; symlinked
directories are not descended into by the pre-3.13 recursive glob, so
links carry no children. -/
inductive Entry where
  | file (size : Nat)
  | dir (children : List Entry)
  | symlink (targetIsFile : Bool) (targetSize : Nat)

/-- `pathlib.Path.is_file()`: true for regular files and for symlinks
resolving to regular files. -/
def entryIsFile : Entry → Bool
  | .file _ => true
  | .dir _ => false
  | .symlink tif _ => tif

/-- `f.stat().st_size` (stat follows symlinks). -/
def entrySize : Entry → Nat
  | .file s => s
  | .dir _ => 0
  | .symlink _ s => s

mutual
/-- `source.glob('**/*')`: every descendant entry of the source root at
any depth (files, directories and symlinks); globbing a non-directory
yields nothing. -/
def globDescendants : Entry → List Entry
  | .file _ => []
  | .symlink _ _ => []
  | .dir cs => globList cs
/-- Descendant enumeration of a list of sibling entries. -/
def globList : List Entry → List Entry
  | [] => []
  | e :: es => e :: globDescendants e ++ globList es
end

/-- The 100 MiB testing size cap of gdrive.py line 89. -/
def MAX_TEST_SIZE : Nat := 100 * 1024 * 1024

/-- The entries for which `GoogleDriveBackupJob.backup` enqueues an
upload task (lines 84–96): glob the tree, skip entries failing
`is_file()`, skip entries whose size is at least the testing cap,
enqueue the rest. -/
def backupEnqueued (root : Entry) : List Entry :=
  (globDescendants root).filter
    (fun f => entryIsFile f && !(decide (entrySize f ≥ MAX_TEST_SIZE)))

mutual
/-- The regular files in the subtree rooted at an entry (the entry
itself included when it is a regular file); written from the spec's
words for comparison with the enumeration the code performs. -/
def regularFilesIn : Entry → List Entry
  | .file s => [.file s]
  | .symlink _ _ => []
  | .dir cs => regularFilesList cs
/-- Regular files in a list of sibling subtrees. -/
def regularFilesList : List Entry → List Entry
  | [] => []
  | e :: es => regularFilesIn e ++ regularFilesList es
end

/-- The regular files strictly under a source root. -/
def regularFilesUnder : Entry → List Entry
  | .dir cs => regularFilesList cs
  | _ => []

/-! ## The producer loop of `GoogleDriveBackupJob.backup`
(gdrive.py lines 67–99) -/

/-- The producer loop of `GoogleDriveBackupJob.backup` over the queue
size: before the `k`-th remaining `put_nowait` the workers have removed
some items (the head of `removals`, capped at the queue size); then
`put_nowait` raises `queue.Full` — modelled as `none` — when the size
has reached `maxsize`; after a successful put, if
`qsize() + num_workers >= maxsize` the producer calls `queue.join()`,
which returns only once every enqueued task is acknowledged, leaving
the queue empty.  Workers only ever remove items, so any interleaving
is covered by choosing `removals`. -/
def backupProducerLoop (num_workers maxsize : Nat) :
    Nat → List Nat → Nat → Option Nat
  | 0, _, q => some q
  | Nat.succ k, removals, q =>
    let q1 := q - removals.headI
    if q1 ≥ maxsize then none
    else
      let q2 := q1 + 1
      let q3 := if q2 + num_workers ≥ maxsize then 0 else q2
      backupProducerLoop num_workers maxsize k removals.tail q3

/-! ## Concrete instances used in counterexamples and witnesses -/

/-- An empty mount table and a filesystem whose only directory is `/a`
(nothing is a file or a mount point). -/
def fsW1 : FstabFS :=
  ⟨fun _ => false, fun p => p == ['/', 'a'], fun _ => false, []⟩

/-- A completely empty filesystem with an empty mount table. -/
def fsC3a : FstabFS := ⟨fun _ => false, fun _ => false, fun _ => false, []⟩

/-- A filesystem where `/a/b` is a directory, nothing is mounted, and
the mount table's only line names `/a`. -/
def fsC3b : FstabFS :=
  ⟨fun _ => false, fun p => p == ['/', 'a', '/', 'b'], fun _ => false,
   [['/', 'a', ' ', 'x']]⟩

/-- A filesystem whose only file is `/d/a.tar.gz`. -/
def fsysTar : FileSys := ⟨fun p => p == "/d/a.tar.gz".toList⟩

/-- An upload-attempt oracle that fails every attempt with HTTP 404. -/
def att404 : Nat → AttemptResult := fun _ => .http404

/-- An upload-attempt oracle that succeeds on every attempt. -/
def attOk : Nat → AttemptResult := fun _ => .success

/-- A source tree holding a single regular file of exactly the testing
size cap. -/
def rootBig : Entry := .dir [.file MAX_TEST_SIZE]

/-- A source tree holding a single symlink to a small regular file. -/
def rootLink : Entry := .dir [.symlink true 5]

/-! ## Lemmas about the mount-table walk -/

theorem takeWhile_length_le (p : Char → Bool) (l : PyStr) :
    (l.takeWhile p).length ≤ l.length := by
  induction l with
  | nil => simp
  | cons a as ih =>
    rw [List.takeWhile_cons]
    split
    · simpa using ih
    · simp

theorem dropWhile_head_not (p : Char → Bool) :
    ∀ (l : PyStr) (c : Char) (cs : PyStr), l.dropWhile p = c :: cs → p c = false := by
  intro l
  induction l with
  | nil => intro c cs h; simp [List.dropWhile] at h
  | cons a as ih =>
    intro c cs h
    rw [List.dropWhile_cons] at h
    split at h
    · exact ih c cs h
    · cases h
      simp_all

theorem rstripSlash_reverse (s : PyStr) :
    (rstripSlash s).reverse = s.reverse.dropWhile (fun c => c == '/') := by
  unfold rstripSlash
  simp

theorem pathSplit_snd (s : PyStr) : (pathSplit s).2 = s.drop (splitIdx s) := rfl

theorem rstrip_split_tail_nil (s : PyStr)
    (h : (pathSplit (rstripSlash s)).2 = []) : rstripSlash s = [] := by
  by_contra hne
  obtain ⟨d, ds, hd⟩ : ∃ d ds, (rstripSlash s).reverse = d :: ds := by
    cases hcr : (rstripSlash s).reverse with
    | nil => exact absurd (by simpa using congrArg List.reverse hcr) hne
    | cons d ds => exact ⟨d, ds, rfl⟩
  have hdn : (d == '/') = false := by
    apply dropWhile_head_not (fun x => x == '/') s.reverse d ds
    rw [← rstripSlash_reverse]
    exact hd
  have hd' : d ≠ '/' := by simpa using hdn
  have hk : 1 ≤ ((rstripSlash s).reverse.takeWhile (fun x => x != '/')).length := by
    rw [hd, List.takeWhile_cons]
    simp [hd']
  have hlen : (rstripSlash s).length = ds.length + 1 := by
    have h2 := congrArg List.length hd
    simpa using h2
  have htail := congrArg List.length h
  rw [pathSplit_snd, List.length_drop] at htail
  unfold splitIdx at htail
  simp only [List.length_nil] at htail
  omega

theorem reSearch_nil (line : PyStr) : reSearch [] line = true := by
  cases line <;> simp [reSearch, reMatchHere]

theorem walk_measure_lt (cur : PyStr) (hne : (pathSplit (rstripSlash cur)).2 ≠ []) :
    (pathSplit (rstripSlash cur)).1.length < cur.length :=
  calc (pathSplit (rstripSlash cur)).1.length
      < (rstripSlash cur).length := pathSplit_head_lt_of_tail_ne_nil _ hne
    _ ≤ cur.length := rstripSlash_length_le cur

theorem fstabCandidates_eq (cur : PyStr) :
    fstabCandidates cur =
      if (pathSplit (rstripSlash cur)).2 ≠ [] then
        rstripSlash cur :: fstabCandidates (pathSplit (rstripSlash cur)).1
      else [rstripSlash cur] := by
  conv_lhs => rw [fstabCandidates.eq_def]

theorem vbtWalk_eq (fs : FstabFS) (bt : PyStr) (fr : Bool) (cur : PyStr) :
    vbtWalk fs bt fr cur =
      match entryCheck fs bt fr with
      | .error e => .error e
      | .ok bd =>
        if fs.fstab.any (fun line => reSearch (rstripSlash cur) line) then
          if fs.ismount (rstripSlash cur) = false then .error ⟨ENXIOVal, bt⟩
          else finalChecks fs bt fr bd
        else if (pathSplit (rstripSlash cur)).2 ≠ [] then
          match vbtWalk fs bt fr (pathSplit (rstripSlash cur)).1 with
          | .ok s => .ok s
          | .error _ => finalChecks fs bt fr bd
        else finalChecks fs bt fr bd := by
  conv_lhs => rw [vbtWalk.eq_def]

theorem nil_mem_fstabCandidates_aux :
    ∀ n, ∀ cur : PyStr, cur.length < n → [] ∈ fstabCandidates cur := by
  intro n
  induction n with
  | zero => intro cur h; omega
  | succ n ih =>
    intro cur hlt
    rw [fstabCandidates_eq]
    split
    · next hne =>
      refine List.mem_cons_of_mem _ (ih _ ?_)
      have h1 := walk_measure_lt cur hne
      omega
    · next hnil =>
      push_neg at hnil
      rw [rstrip_split_tail_nil cur hnil]
      simp

theorem nil_mem_fstabCandidates (cur : PyStr) : [] ∈ fstabCandidates cur :=
  nil_mem_fstabCandidates_aux (cur.length + 1) cur (Nat.lt_succ_self _)

theorem vbtWalk_empty_fstab_aux (fs : FstabFS) (bt : PyStr) (fr : Bool)
    (hfstab : fs.fstab = []) :
    ∀ n, ∀ cur : PyStr, cur.length < n →
      vbtWalk fs bt fr cur =
        match entryCheck fs bt fr with
        | .error e => .error e
        | .ok bd => finalChecks fs bt fr bd := by
  intro n
  induction n with
  | zero => intro cur h; omega
  | succ n ih =>
    intro cur hlt
    rw [vbtWalk_eq]
    cases hec : entryCheck fs bt fr with
    | error e => simp
    | ok bd =>
      simp only [hfstab, List.any_nil, Bool.false_eq_true, if_false]
      split
      · next hne =>
        have hrec := ih (pathSplit (rstripSlash cur)).1
          (by have := walk_measure_lt cur hne; omega)
        rw [hrec, hec]
        cases hfc : finalChecks fs bt fr bd <;> simp [hfc]
      · rfl

theorem vbtWalk_empty_fstab (fs : FstabFS) (bt : PyStr) (fr : Bool)
    (hfstab : fs.fstab = []) (cur : PyStr) :
    vbtWalk fs bt fr cur =
      match entryCheck fs bt fr with
      | .error e => .error e
      | .ok bd => finalChecks fs bt fr bd :=
  vbtWalk_empty_fstab_aux fs bt fr hfstab (cur.length + 1) cur (Nat.lt_succ_self _)

theorem vbtWalk_ok_final_aux (fs : FstabFS) (bt : PyStr) (fr : Bool) :
    ∀ n, ∀ cur s : PyStr, cur.length < n → vbtWalk fs bt fr cur = .ok s →
      ∃ bd, entryCheck fs bt fr = .ok bd ∧ finalChecks fs bt fr bd = .ok s := by
  intro n
  induction n with
  | zero => intro cur s h; omega
  | succ n ih =>
    intro cur s hlt h
    rw [vbtWalk_eq] at h
    cases hec : entryCheck fs bt fr with
    | error e => rw [hec] at h; simp at h
    | ok bd =>
      rw [hec] at h
      simp only [] at h
      split at h
      · split at h
        · simp at h
        · exact ⟨bd, rfl, h⟩
      · split at h
        · next hne2 =>
          generalize hrec : vbtWalk fs bt fr (pathSplit (rstripSlash cur)).1 = r at h
          cases r with
          | ok s' =>
            have hs : s' = s := by simpa using h
            subst hs
            have hm := walk_measure_lt cur hne2
            obtain ⟨bd', hec', hfc'⟩ := ih _ _ (by omega) hrec
            rw [hec] at hec'
            cases hec'
            exact ⟨bd, rfl, hfc'⟩
          | error e' =>
            simp only [] at h
            exact ⟨bd, rfl, h⟩
        · exact ⟨bd, rfl, h⟩

theorem vbtWalk_ok_final (fs : FstabFS) (bt : PyStr) (fr : Bool)
    (cur s : PyStr) (h : vbtWalk fs bt fr cur = .ok s) :
    ∃ bd, entryCheck fs bt fr = .ok bd ∧ finalChecks fs bt fr bd = .ok s :=
  vbtWalk_ok_final_aux fs bt fr (cur.length + 1) cur s (Nat.lt_succ_self _) h

theorem validate_ok_exists_walk (fs : FstabFS) (bt : PyStr) (fr : Bool)
    (cur : Option PyStr) (s : PyStr)
    (h : validate_backup_target fs bt fr cur = .ok s) :
    ∃ c, vbtWalk fs bt fr c = .ok s := by
  unfold validate_backup_target at h
  cases cur with
  | some c => exact ⟨c, h⟩
  | none =>
    cases hec : entryCheck fs bt fr with
    | error e => rw [hec] at h; simp at h
    | ok bd => rw [hec] at h; exact ⟨_, h⟩

/-! ## C1: unlisted paths validate without the ENXIO error -/

/-- C1: a backup target that is an existing directory and whose
candidate walk (up to the filesystem root) matches no line of the mount
table validates successfully — reaching the root with no match is
treated as "not a mount point, assume safe", not as an `ENXIO`
failure. -/
theorem validate_unlisted_directory_ok (fs : FstabFS) (p : PyStr)
    (hdir : fs.isdir p = true) (hfile : fs.isfile p = false)
    (hnomatch : ∀ a ∈ fstabCandidates p, ∀ line ∈ fs.fstab,
      reSearch a line = false) :
    (validate_backup_target fs p false none).isOk = true := by
  have hfstab : fs.fstab = [] := by
    cases hf : fs.fstab with
    | nil => rfl
    | cons l ls =>
      have h1 := hnomatch [] (nil_mem_fstabCandidates p) l (by rw [hf]; simp)
      rw [reSearch_nil] at h1
      cases h1
  have hec : entryCheck fs p false = .ok none := by
    unfold entryCheck
    simp [hfile]
  unfold validate_backup_target
  rw [hec]
  simp only [Option.getD]
  rw [vbtWalk_empty_fstab fs p false hfstab, hec]
  unfold finalChecks
  simp [hdir, Except.isOk, Except.toBool]

/-- Witness for C1 at a concrete filesystem: `/a` is a directory and
the mount table is empty, so validation succeeds. -/
theorem validate_unlisted_directory_ok_witness :
    fsW1.isdir ['/', 'a'] = true ∧ fsW1.isfile ['/', 'a'] = false ∧
    (validate_backup_target fsW1 ['/', 'a'] false none).isOk = true := by
  refine ⟨by decide, rfl, validate_unlisted_directory_ok fsW1 ['/', 'a'] (by decide) rfl ?_⟩
  intro a _ line hline
  simp [fsW1] at hline

/-! ## C2: the mount-table match is a regex search, not a substring test -/

/-- C3 counterexample: `validate_backup_target` can succeed although
the target does not exist at all (required-file mode with a fresh
target name, `fsC3a`), and although the matched mount-table ancestor
`/a` is not mounted — the `ENXIO` raised at the ancestor level is
swallowed by the caller's `except ... : pass` (`fsC3b`, where nothing
whatsoever is mounted). -/
theorem validate_success_counterexample :
    validate_backup_target fsC3a ['/', 'b'] true none = .ok ['/', 'b'] ∧
    fsC3a.isfile ['/', 'b'] = false ∧
    validate_backup_target fsC3b ['/', 'a', '/', 'b'] false none =
      .ok ['/', 'a', '/', 'b', '/'] ∧
    reSearch ['/', 'a'] ['/', 'a', ' ', 'x'] = true ∧
    (['/', 'a', ' ', 'x'] ∈ fsC3b.fstab) ∧
    fsC3b.ismount ['/', 'a'] = false ∧
    fsC3b.ismount ['/', 'a', '/', 'b'] = false := by
  refine ⟨?_, rfl, ?_, by decide, by simp [fsC3b], rfl, rfl⟩
  · unfold validate_backup_target
    simp +decide [vbtWalk_eq, entryCheck, finalChecks, addTrailingSlash, fsC3a]
  · unfold validate_backup_target
    simp +decide [vbtWalk_eq, entryCheck, finalChecks, addTrailingSlash, fsC3b]

/-- C3 amended: when `validate_backup_target` returns successfully the
target matches the required type — in directory mode the target is an
existing directory (and not a file); in required-file mode the target
is not a directory, and when it exists as a file its containing
directory is an existing directory.  Existence of a not-yet-created
required-file target and mountedness of the matched mount-table entry
are not guaranteed. -/
theorem validate_success_postcondition (fs : FstabFS) (bt : PyStr) (fr : Bool)
    (cur : Option PyStr) (s : PyStr)
    (h : validate_backup_target fs bt fr cur = .ok s) :
    (fr = false → fs.isdir bt = true ∧ fs.isfile bt = false) ∧
    (fr = true → fs.isdir bt = false ∧
      (fs.isfile bt = true → fs.isdir (pathSplit bt).1 = true)) := by
  obtain ⟨c, hw⟩ := validate_ok_exists_walk fs bt fr cur s h
  obtain ⟨bd, hec, hfc⟩ := vbtWalk_ok_final fs bt fr c s hw
  constructor
  · rintro rfl
    unfold entryCheck at hec
    simp only [Bool.false_eq_true, if_false] at hec
    cases hfile : fs.isfile bt with
    | true => rw [hfile] at hec; simp at hec
    | false =>
      rw [hfile] at hec
      simp only [Bool.false_eq_true, if_false] at hec
      have hbd : bd = none := by
        cases hec
        rfl
      subst hbd
      unfold finalChecks at hfc
      cases hdir : fs.isdir bt with
      | true => exact ⟨rfl, rfl⟩
      | false => rw [hdir] at hfc; simp at hfc
  · rintro rfl
    unfold entryCheck at hec
    try simp only [eq_self_iff_true, if_true] at hec
    cases hdir : fs.isdir bt with
    | true => rw [hdir] at hec; simp at hec
    | false =>
      rw [hdir] at hec
      simp only [Bool.false_eq_true, if_false] at hec
      refine ⟨rfl, ?_⟩
      intro hfile
      rw [hfile] at hec
      simp only [eq_self_iff_true, if_true] at hec
      have hbd : bd = some (pathSplit bt).1 := by
        cases hec
        rfl
      subst hbd
      by_contra hpd
      have hpd' : fs.isdir (pathSplit bt).1 = false := by
        cases hx : fs.isdir (pathSplit bt).1
        · rfl
        · exact absurd hx hpd
      unfold finalChecks at hfc
      simp [hdir, hpd'] at hfc

/-- Witness for the amended C3: a successful directory-mode validation
on `fsC3b` yields the postcondition facts. -/
theorem validate_success_postcondition_witness :
    fsC3b.isdir ['/', 'a', '/', 'b'] = true ∧
    fsC3b.isfile ['/', 'a', '/', 'b'] = false :=
  (validate_success_postcondition fsC3b ['/', 'a', '/', 'b'] false none
    ['/', 'a', '/', 'b', '/']
    (by
      unfold validate_backup_target
      simp +decide [vbtWalk_eq, entryCheck, finalChecks, addTrailingSlash, fsC3b])).1 rfl

/-! ## Lemmas about `listReplace` -/

theorem listReplace_eq (s pat rep : PyStr) :
    listReplace s pat rep =
      match s with
      | [] => []
      | c :: rest =>
        if !pat.isEmpty && leadsWith pat (c :: rest) then
          rep ++ listReplace ((c :: rest).drop pat.length) pat rep
        else
          c :: listReplace rest pat rep := by
  conv_lhs => rw [listReplace.eq_def]

theorem leadsWith_refl (l : PyStr) : leadsWith l l = true := by
  induction l with
  | nil => rfl
  | cons c cs ih => simp [leadsWith, ih]

theorem listReplace_nil (pat rep : PyStr) : listReplace [] pat rep = [] := by
  rw [listReplace_eq]

theorem listReplace_single_occurrence (pat rep : PyStr) (hpat : pat ≠ []) :
    ∀ stem : PyStr,
      (∀ i, i < stem.length → leadsWith pat ((stem ++ pat).drop i) = false) →
      listReplace (stem ++ pat) pat rep = stem ++ rep := by
  intro stem
  induction stem with
  | nil =>
    intro _
    cases hp : pat with
    | nil => exact absurd hp hpat
    | cons p ps =>
      rw [List.nil_append, listReplace_eq]
      simp only [hp]
      rw [if_pos (by simp [leadsWith_refl])]
      rw [List.drop_length, listReplace_nil]
      simp
  | cons a as ih =>
    intro hno
    have h0 := hno 0 (by simp)
    rw [List.drop_zero, List.cons_append] at h0
    rw [List.cons_append, listReplace_eq]
    simp only [h0, Bool.and_false, Bool.false_eq_true, if_false]
    congr 1
    apply ih
    intro i hi
    have := hno (i + 1) (by simpa using Nat.succ_lt_succ hi)
    simpa using this

/-! ## C4: rotation of an existing target under overwrite -/

/-- C4: with an existing file target and overwrite enabled, `backup`
renames the target to the sibling name obtained by replacing its sole
`.tar.gz` suffix with `.<timestamp>.tar.gz`; after a run whose
external command fails the rotated file still exists at the rotated
name (and the failure is surfaced), and after a successful run the
rotated file has been deleted. -/
theorem backup_rotation_cycle (fsys : FileSys) (target stem ts : PyStr)
    (retFail : Nat)
    (hfile : fsys.isfile target = true)
    (hname : (pathSplit target).2 = stem ++ tarGzSuffix)
    (hsingle : ∀ i, i < stem.length →
      leadsWith tarGzSuffix ((stem ++ tarGzSuffix).drop i) = false)
    (hfail : retFail ≠ 0) :
    rotatedName target ts =
      pathJoin (pathSplit target).1 (stem ++ '.' :: ts ++ tarGzSuffix) ∧
    (backup fsys target true ts retFail).1 =
      .error (.calledProcessError retFail) ∧
    (backup fsys target true ts retFail).2.isfile (rotatedName target ts) = true ∧
    (backup fsys target true ts 0).1 = .ok 0 ∧
    (backup fsys target true ts 0).2.isfile (rotatedName target ts) = false := by
  refine ⟨?_, ?_, ?_, ?_, ?_⟩
  · show pathJoin (pathSplit target).1
        (listReplace (pathSplit target).2 tarGzSuffix ('.' :: ts ++ tarGzSuffix)) =
      pathJoin (pathSplit target).1 (stem ++ '.' :: ts ++ tarGzSuffix)
    rw [hname,
      listReplace_single_occurrence tarGzSuffix _ (by decide) stem hsingle]
    simp
  · unfold backup check_call
    simp [hfile, hfail]
  · unfold backup check_call
    simp [hfile, hfail, fsRename]
  · unfold backup check_call
    simp [hfile]
  · unfold backup check_call
    simp [hfile, fsRemove]

/-- Witness for C4 at the concrete target `/d/a.tar.gz`. -/
theorem backup_rotation_cycle_witness :
    fsysTar.isfile ("/d/a.tar.gz".toList) = true ∧
    (backup fsysTar ("/d/a.tar.gz".toList) true ['T'] 1).1 =
      .error (.calledProcessError 1) ∧
    (backup fsysTar ("/d/a.tar.gz".toList) true ['T'] 1).2.isfile
      (rotatedName ("/d/a.tar.gz".toList) ['T']) = true ∧
    (backup fsysTar ("/d/a.tar.gz".toList) true ['T'] 0).2.isfile
      (rotatedName ("/d/a.tar.gz".toList) ['T']) = false := by
  have h := backup_rotation_cycle fsysTar ("/d/a.tar.gz".toList) ['a'] ['T'] 1
    (by decide) (by decide) (by decide) (by decide)
  exact ⟨by decide, h.2.1, h.2.2.1, h.2.2.2.2⟩

/-! ## C5: the exit-code-2 "success" branch is unreachable -/

/-- C5: evidence that an external exit code of `2` is *not* treated as
success — `subprocess.check_call` raises `CalledProcessError` for every
non-zero exit code before the `job_retval in (0, 2)` membership test can
see it, so `backup` propagates the error and the rotated-out old backup
is left in place (no cleanup happens). -/
theorem backup_exit_code_two_raises :
    (backup fsysTar ("/d/a.tar.gz".toList) true ['T'] 2).1 =
      .error (.calledProcessError 2) ∧
    (backup fsysTar ("/d/a.tar.gz".toList) true ['T'] 2).2.isfile
      (rotatedName ("/d/a.tar.gz".toList) ['T']) = true ∧
    check_call 2 = .error (.calledProcessError 2) := by
  refine ⟨?_, ?_, rfl⟩
  · unfold backup check_call
    simp +decide [fsysTar]
  · unfold backup check_call
    simp +decide [fsysTar, fsRename]

/-! ## C9: the no-overwrite collision path raises TypeError, not
InvalidBackupTarget(EEXIST) -/

/-- C9: when the target exists as a file and overwrite is disabled,
`backup` fails — before any rename and before the external command is
invoked, independently of the command's exit code — but the failure
that actually escapes is the `TypeError` from constructing the
shadowing three-parameter `InvalidBackupTarget` class with four
positional arguments, not an `InvalidBackupTarget` carrying `EEXIST`
as the raise site (and the claim) intend.  The filesystem is left
untouched. -/
theorem backup_no_overwrite_typeerror (fsys : FileSys) (target ts : PyStr)
    (retcode : Nat) (hfile : fsys.isfile target = true) :
    backup fsys target false ts retcode = (.error .typeError, fsys) := by
  unfold backup
  simp [hfile]

/-- Witness for C9 at the concrete failing input: the existing target
`/d/a.tar.gz` with overwrite disabled. -/
theorem backup_no_overwrite_typeerror_witness :
    backup fsysTar ("/d/a.tar.gz".toList) false ['T'] 0 =
      (.error .typeError, fsysTar) :=
  backup_no_overwrite_typeerror fsysTar ("/d/a.tar.gz".toList) ['T'] 0 (by decide)

/-! ## Lemmas about `upload_file` -/

theorem upload_file_eq (u nu : Bool) (att : Nat → AttemptResult) (t : Nat) :
    upload_file u nu att t =
      if !(if !u then true else if u && nu then true else false) then
        .skipped
      else
        match att t with
        | .success => .uploaded
        | .httpOther => .failedOther
        | .http404 =>
          if t + 1 ≥ 5 then .failedNotFound
          else upload_file u nu att (t + 1) := by
  conv_lhs => rw [upload_file.eq_def]

theorem upload_not_skipped_aux (u nu : Bool) (att : Nat → AttemptResult)
    (hu : (if !u then true else if u && nu then true else false) = true) :
    ∀ d t, 5 - t ≤ d → upload_file u nu att t ≠ .skipped := by
  intro d
  induction d with
  | zero =>
    intro t hle
    rw [upload_file_eq, hu]
    simp only [Bool.not_true, Bool.false_eq_true, if_false]
    split
    · simp
    · simp
    · rw [if_pos (show t + 1 ≥ 5 by omega)]
      simp
  | succ d ih =>
    intro t hle
    rw [upload_file_eq, hu]
    simp only [Bool.not_true, Bool.false_eq_true, if_false]
    split
    · simp
    · simp
    · split
      · simp
      · exact ih (t + 1) (by omega)

theorem upload_skipped_iff (u nu : Bool) (att : Nat → AttemptResult) (t : Nat) :
    upload_file u nu att t = .skipped ↔ u = true ∧ nu = false := by
  cases u with
  | false =>
    constructor
    · intro h
      exact absurd h (upload_not_skipped_aux false nu att rfl (5 - t) t le_rfl)
    · rintro ⟨h, -⟩
      cases h
  | true =>
    cases nu with
    | false =>
      constructor
      · intro _
        exact ⟨rfl, rfl⟩
      · intro _
        rw [upload_file_eq]
        rfl
    | true =>
      constructor
      · intro h
        exact absurd h (upload_not_skipped_aux true true att rfl (5 - t) t le_rfl)
      · rintro ⟨-, h⟩
        cases h

/-! ## C6: the 404 retry cap of `upload_file` -/

/-- C6: an upload whose every attempt fails with a 404 "not found"
error is attempted exactly five times and then the failure propagates:
starting from `tries = 0`, five all-404 attempts end in the re-raised
404 error; the result depends only on the outcomes of attempts
`0,…,4` (no sixth attempt is ever consulted); and a 404 with fewer
than five attempts so far performs exactly one more recursive attempt
with the counter incremented. -/
theorem upload_retry_cap (nu : Bool) (att att' : Nat → AttemptResult) :
    ((∀ k, k < 5 → att k = .http404) →
      upload_file false nu att 0 = .failedNotFound) ∧
    ((∀ k, k < 5 → att k = att' k) →
      upload_file false nu att 0 = upload_file false nu att' 0) ∧
    (∀ t, att t = .http404 → t + 1 < 5 →
      upload_file false nu att t = upload_file false nu att (t + 1)) := by
  have hdec : (if !false then true else if false && nu then true else false) = true := rfl
  refine ⟨?_, ?_, ?_⟩
  · intro h
    have e4 : upload_file false nu att 4 = .failedNotFound := by
      rw [upload_file_eq, h 4 (by norm_num)]
      rfl
    have e3 : upload_file false nu att 3 = .failedNotFound := by
      rw [upload_file_eq, h 3 (by norm_num)]
      simpa using e4
    have e2 : upload_file false nu att 2 = .failedNotFound := by
      rw [upload_file_eq, h 2 (by norm_num)]
      simpa using e3
    have e1 : upload_file false nu att 1 = .failedNotFound := by
      rw [upload_file_eq, h 1 (by norm_num)]
      simpa using e2
    rw [upload_file_eq, h 0 (by norm_num)]
    simpa using e1
  · intro h
    have i4 : upload_file false nu att 4 = upload_file false nu att' 4 := by
      rw [upload_file_eq, h 4 (by norm_num)]
      conv_rhs => rw [upload_file_eq]
      cases att' 4 <;> rfl
    have i3 : upload_file false nu att 3 = upload_file false nu att' 3 := by
      rw [upload_file_eq, h 3 (by norm_num)]
      conv_rhs => rw [upload_file_eq]
      cases att' 3 <;> simp [i4]
    have i2 : upload_file false nu att 2 = upload_file false nu att' 2 := by
      rw [upload_file_eq, h 2 (by norm_num)]
      conv_rhs => rw [upload_file_eq]
      cases att' 2 <;> simp [i3]
    have i1 : upload_file false nu att 1 = upload_file false nu att' 1 := by
      rw [upload_file_eq, h 1 (by norm_num)]
      conv_rhs => rw [upload_file_eq]
      cases att' 1 <;> simp [i2]
    rw [upload_file_eq, h 0 (by norm_num)]
    conv_rhs => rw [upload_file_eq]
    cases att' 0 <;> simp [i1]
  · intro t h404 hlt
    rw [upload_file_eq, h404]
    simp only [Bool.not_false, if_true, hdec, Bool.not_true, Bool.false_eq_true,
      if_false]
    rw [if_neg (by omega)]

/-- Witness for C6: the all-404 oracle exhausts the cap. -/
theorem upload_retry_cap_witness :
    upload_file false true att404 0 = .failedNotFound :=
  (upload_retry_cap true att404 att404).1 (fun _ _ => rfl)

/-! ## Lemmas about `should_update_file` -/

theorem findVerdict_eq_firstMatchPage (srcName : PyStr) (m : Int)
    (page : List DriveFile) :
    findVerdict srcName m page =
      (firstMatchPage srcName page).map (fun f => decide (f.modifiedTime < m)) := by
  induction page with
  | nil => rfl
  | cons f fs ih =>
    unfold findVerdict firstMatchPage
    cases ht : f.trashed with
    | true => simp [ht, ih]
    | false =>
      cases hn : f.name == srcName with
      | true => simp [ht, hn]
      | false => simp [ht, hn, ih]

theorem scanPages_eq (srcName : PyStr) (m : Int)
    (pages : List (List DriveFile)) :
    scanPages srcName m pages =
      match firstMatch srcName pages with
      | some f => decide (f.modifiedTime < m)
      | none => true := by
  induction pages with
  | nil => rfl
  | cons page rest ih =>
    unfold scanPages firstMatch
    rw [findVerdict_eq_firstMatchPage]
    cases firstMatchPage srcName page <;> simp [ih]

theorem should_update_file_eq (srcName : PyStr) (m : Int)
    (pages : List (List DriveFile)) :
    should_update_file srcName m pages =
      match firstMatch srcName (scannedPages pages) with
      | some f => decide (f.modifiedTime < m)
      | none => true := by
  cases pages with
  | nil => rfl
  | cons a rest =>
    cases rest with
    | nil =>
      simp only [should_update_file, scannedPages, firstMatch,
        findVerdict_eq_firstMatchPage]
      cases firstMatchPage srcName a <;> simp
    | cons b rest2 =>
      simp only [should_update_file, scannedPages]
      exact scanPages_eq srcName m (b :: rest2)

/-! ## C8: the update-mode skip policy -/

/-- C8: in overwrite mode (`update = false`) `upload_file` never
skips; in update mode the upload is skipped exactly when the remote
listing's first non-trashed name match is at least as new as the local
file's UTC modification time; and whenever the scanned pages contain
no such match, `should_update_file` reports "needs upload". -/
theorem update_policy_correct (srcName : PyStr) (m : Int)
    (pages : List (List DriveFile)) (att : Nat → AttemptResult)
    (nu : Bool) (t : Nat) :
    (upload_file false nu att t ≠ .skipped) ∧
    (upload_file true (should_update_file srcName m pages) att t = .skipped ↔
      ∃ f, firstMatch srcName (scannedPages pages) = some f ∧
        m ≤ f.modifiedTime) ∧
    (firstMatch srcName (scannedPages pages) = none →
      should_update_file srcName m pages = true) := by
  refine ⟨?_, ?_, ?_⟩
  · intro h
    have := ((upload_skipped_iff false nu att t).mp h).1
    cases this
  · rw [upload_skipped_iff]
    rw [should_update_file_eq]
    cases hfm : firstMatch srcName (scannedPages pages) with
    | none => simp
    | some f =>
      simp only [true_and]
      constructor
      · intro h
        refine ⟨f, rfl, ?_⟩
        have : ¬ (f.modifiedTime < m) := by
          intro hlt
          rw [decide_eq_true hlt] at h
          cases h
        omega
      · rintro ⟨f', hf', hle⟩
        cases hf'
        simp only [decide_eq_false_iff_not]
        omega
  · intro h
    rw [should_update_file_eq, h]

/-- Witness for C8: with a remote match newer than the local mtime,
update mode skips the upload. -/
theorem update_policy_correct_witness :
    upload_file true (should_update_file ['a'] 3 [[⟨['a'], 5, false⟩]]) attOk 0 =
      .skipped :=
  (update_policy_correct ['a'] 3 [[⟨['a'], 5, false⟩]] attOk true 0).2.1.mpr
    ⟨⟨['a'], 5, false⟩, by decide, by norm_num⟩

/-! ## Lemmas about the tree walk -/

mutual
theorem regularFilesIn_sub (e : Entry) (x : Entry) (hx : x ∈ regularFilesIn e) :
    entryIsFile x = true ∧ (x = e ∨ x ∈ globDescendants e) := by
  cases e with
  | file s =>
    simp only [regularFilesIn, List.mem_singleton] at hx
    subst hx
    exact ⟨rfl, Or.inl rfl⟩
  | symlink a b => simp [regularFilesIn] at hx
  | dir cs =>
    have h := regularFilesList_sub cs x (by simpa [regularFilesIn] using hx)
    exact ⟨h.1, Or.inr (by simpa [globDescendants] using h.2)⟩
theorem regularFilesList_sub (l : List Entry) (x : Entry)
    (hx : x ∈ regularFilesList l) :
    entryIsFile x = true ∧ x ∈ globList l := by
  cases l with
  | nil => simp [regularFilesList] at hx
  | cons e es =>
    rw [regularFilesList] at hx
    rcases List.mem_append.mp hx with h1 | h2
    · have h := regularFilesIn_sub e x h1
      refine ⟨h.1, ?_⟩
      rw [globList]
      rcases h.2 with he | hd
      · rw [he]
        exact List.mem_cons_self _ _
      · exact List.mem_cons_of_mem _ (List.mem_append.mpr (Or.inl hd))
    · have h := regularFilesList_sub es x h2
      refine ⟨h.1, ?_⟩
      rw [globList]
      exact List.mem_cons_of_mem _ (List.mem_append.mpr (Or.inr h.2))
end

/-! ## C7: which entries the Google Drive tree walk enqueues -/

/-- C7 counterexample: a regular file of exactly the 100 MiB testing
cap is a regular file under the source root yet is never enqueued
(skipped by the `TODO`-marked size filter), while a symlink resolving
to a regular file *is* enqueued even though the tree under `rootLink`
contains no regular file at all. -/
theorem backup_enqueue_counterexample :
    (Entry.file MAX_TEST_SIZE ∈ regularFilesUnder rootBig) ∧
    (Entry.file MAX_TEST_SIZE ∉ backupEnqueued rootBig) ∧
    (Entry.symlink true 5 ∈ backupEnqueued rootLink) ∧
    regularFilesUnder rootLink = [] := by
  refine ⟨?_, ?_, ?_, ?_⟩
  · simp [regularFilesUnder, regularFilesList, regularFilesIn, rootBig]
  · simp [backupEnqueued, globDescendants, globList, rootBig, entryIsFile,
      entrySize]
  · simp [backupEnqueued, globDescendants, globList, rootLink, entryIsFile,
      entrySize, MAX_TEST_SIZE]
  · simp [regularFilesUnder, regularFilesList, regularFilesIn, rootLink]

/-- C7 amended: `GoogleDriveBackupJob.backup` enqueues exactly the
glob-enumerated descendants of the source root that pass `is_file()`
(regular files and symlinks resolving to regular files) and whose size
is below the temporary 100 MiB testing cap; in particular every
regular file under the root smaller than the cap is enqueued, and
directories are never enqueued. -/
theorem backup_enqueue_characterization (root e : Entry) :
    (e ∈ backupEnqueued root ↔
      e ∈ globDescendants root ∧ entryIsFile e = true ∧
        entrySize e < MAX_TEST_SIZE) ∧
    (e ∈ regularFilesUnder root → entrySize e < MAX_TEST_SIZE →
      e ∈ backupEnqueued root) := by
  have hchar : e ∈ backupEnqueued root ↔
      e ∈ globDescendants root ∧ entryIsFile e = true ∧
        entrySize e < MAX_TEST_SIZE := by
    unfold backupEnqueued
    rw [List.mem_filter]
    constructor
    · rintro ⟨hg, hp⟩
      simp only [Bool.and_eq_true, Bool.not_eq_true', decide_eq_false_iff_not,
        not_le] at hp
      exact ⟨hg, hp.1, hp.2⟩
    · rintro ⟨hg, hf, hs⟩
      refine ⟨hg, ?_⟩
      simp only [Bool.and_eq_true, Bool.not_eq_true', decide_eq_false_iff_not,
        not_le]
      exact ⟨hf, hs⟩
  refine ⟨hchar, ?_⟩
  intro hr hs
  cases root with
  | file s => simp [regularFilesUnder] at hr
  | symlink a b => simp [regularFilesUnder] at hr
  | dir cs =>
    have h := regularFilesList_sub cs e (by simpa [regularFilesUnder] using hr)
    exact hchar.mpr ⟨by simpa [globDescendants] using h.2, h.1, hs⟩

/-- Witness for the amended C7: a small regular file in a one-file
tree is enqueued. -/
theorem backup_enqueue_characterization_witness :
    Entry.file 5 ∈ backupEnqueued (Entry.dir [Entry.file 5]) :=
  (backup_enqueue_characterization (Entry.dir [Entry.file 5]) (Entry.file 5)).2
    (by simp [regularFilesUnder, regularFilesList, regularFilesIn])
    (by norm_num [entrySize, MAX_TEST_SIZE])

/-! ## C10: the producer never overflows the bounded queue -/

theorem producerLoop_invariant (num_workers maxsize : Nat)
    (hW : 0 < num_workers) (hmax : num_workers < maxsize) :
    ∀ k removals q, q + num_workers < maxsize →
      backupProducerLoop num_workers maxsize k removals q ≠ none := by
  intro k
  induction k with
  | zero =>
    intro removals q hq
    simp [backupProducerLoop]
  | succ k ih =>
    intro removals q hq
    simp only [backupProducerLoop]
    split
    · next hfull =>
      exfalso
      omega
    · next hnotfull =>
      split
      · exact ih removals.tail 0 (by omega)
      · next hnojoin => exact ih removals.tail _ (by omega)

/-- C10: with at least one worker, the producer loop of
`GoogleDriveBackupJob.backup` over a queue of capacity
`num_workers * 100` never hits the queue-full condition: whatever the
workers remove and however many files are enumerated, every
`put_nowait` runs with the queue size strictly below capacity, because
the producer waits for a full drain whenever the size comes within
`num_workers` of the capacity. -/
theorem producer_queue_no_overflow (num_workers files : Nat)
    (removals : List Nat) (hW : 1 ≤ num_workers) :
    backupProducerLoop num_workers (num_workers * 100) files removals 0 ≠
      none := by
  apply producerLoop_invariant num_workers (num_workers * 100) (by omega)
    (by omega) files removals 0 (by omega)

/-- Witness for C10: two workers, capacity 200, three files. -/
theorem producer_queue_no_overflow_witness :
    backupProducerLoop 2 (2 * 100) 3 [0, 1, 5] 0 ≠ none :=
  producer_queue_no_overflow 2 3 [0, 1, 5] (by norm_num)

end Backuply
